import Mathlib

/-!
Shallow embedding of the matching engine in `src/services/matching-engine.ts`.

Modelling conventions:
* JS numbers are modelled exactly: prices and commissions as rationals (ℚ),
  lot quantities, lengths and millisecond durations as naturals (ℕ).
* The persistent order store is passed explicitly as a list of order rows;
  store reads that can fail are `Option` inputs.
* The in-memory `Map`s (`pendingConfirmations`, `negotiationState`) are
  association lists with `Map.set` / `Map.delete` semantics; the
  `declinedPartialFills` `Set` is a duplicate-free membership list.
* Timers and notifications are pure data recorded in each operation's
  outcome (the notified user and the armed duration in ms); the wall-clock
  firing of a timer calls the same response handler with `accepted = false`,
  so the timeout paths are covered by quantifying over responses.
* A store row update on an id that is absent behaves as a no-op here; in the
  source, the thrown store error is caught by the surrounding handler, with
  the same observable result (no reload succeeds, no commit happens).
-/

namespace MatchingEngine

/-- Side of an order: the `action` column. -/
inductive OrderAction where
  | BID
  | OFFER
  deriving DecidableEq

/-- Order lifecycle status values. -/
inductive OrderStatus where
  | ACTIVE
  | MATCHED
  | CANCELLED
  | EXPIRED
  deriving DecidableEq

/-- An order row as read and written by the engine. `amount` is the original
amount column; `remaining` the unfilled lots. -/
structure Order where
  id : String
  action : OrderAction
  price : ℚ
  asset : String
  amount : ℕ
  remaining : ℕ
  userId : String
  createdAt : ℕ
  matched : Bool := false
  status : OrderStatus := OrderStatus.ACTIVE
  counterparty : Option String := none
  deriving DecidableEq

/-- A trade row created by `executeMatch`. -/
structure Trade where
  asset : String
  price : ℚ
  amount : ℕ
  buyerOrderId : String
  sellerOrderId : String
  commission : ℚ
  buyerId : String
  sellerId : String
  deriving DecidableEq

/-- Match classification computed in `executeMatch`. -/
inductive MatchType where
  | FULL_MATCH
  | PARTIAL_FILL_BUYER
  | PARTIAL_FILL_SELLER
  deriving DecidableEq

/-- `Math.round` on a rational: round half towards positive infinity,
which is JS `Math.round` behaviour. -/
def jsMathRound (x : ℚ) : ℤ := ⌊x + 1/2⌋

/-- `calculateCommission` (matching-engine.ts line 835):
`Math.round((amount * price * 0.001) * 100) / 100`. -/
def calculateCommission (amount : ℕ) (price : ℚ) : ℚ :=
  ((jsMathRound ((amount * price * (1/1000)) * 100) : ℚ)) / 100

/-- Commission as the spec words it:
`round(amount · price · 0.001 · 100) / 100`. -/
def commissionSpecFormula (amount : ℕ) (price : ℚ) : ℚ :=
  ((jsMathRound (amount * price * (1/1000) * 100) : ℚ)) / 100

/-- The trade plus the two order rows as written by `executeMatch`'s
transaction. -/
structure ExecResult where
  trade : Trade
  updatedBid : Order
  updatedOffer : Order
  matchType : MatchType
  deriving DecidableEq

/-- `executeMatch` (lines 559-648): the pure content of the trade commit —
the created trade row and both order updates. -/
def executeMatch (bid offer : Order) : ExecResult :=
  let tradeAmount := min bid.remaining offer.remaining
  let tradePrice := offer.price
  let commission := calculateCommission tradeAmount tradePrice
  let matchType :=
    if bid.remaining = offer.remaining then MatchType.FULL_MATCH
    else if bid.remaining < offer.remaining then MatchType.PARTIAL_FILL_BUYER
    else MatchType.PARTIAL_FILL_SELLER
  let bidRemaining := bid.remaining - tradeAmount
  let offerRemaining := offer.remaining - tradeAmount
  let trade : Trade :=
    { asset := bid.asset
      price := tradePrice
      amount := tradeAmount
      buyerOrderId := bid.id
      sellerOrderId := offer.id
      commission := commission
      buyerId := bid.userId
      sellerId := offer.userId }
  let updatedBid : Order :=
    { bid with
      remaining := bidRemaining
      matched := decide (bidRemaining = 0)
      counterparty := if bidRemaining = 0 then some offer.userId else none
      status := if bidRemaining = 0 then OrderStatus.MATCHED else OrderStatus.ACTIVE }
  let updatedOffer : Order :=
    { offer with
      remaining := offerRemaining
      matched := decide (offerRemaining = 0)
      counterparty := if offerRemaining = 0 then some bid.userId else none
      status := if offerRemaining = 0 then OrderStatus.MATCHED else OrderStatus.ACTIVE }
  { trade := trade
    updatedBid := updatedBid
    updatedOffer := updatedOffer
    matchType := matchType }

/-- Which side of a price-matched pair holds the smaller quantity. -/
inductive Party where
  | BUYER
  | SELLER
  deriving DecidableEq

/-- Two-step quantity-confirmation states. -/
inductive ConfState where
  | AWAITING_SMALLER
  | AWAITING_LARGER
  deriving DecidableEq

/-- An entry of the `pendingConfirmations` map (timer handle and `createdAt`
wall-clock timestamp omitted: they carry no decision-relevant data). -/
structure PendingConf where
  confirmationKey : String
  asset : String
  bidOrder : Order
  offerOrder : Order
  smallerParty : Party
  smallerQuantity : ℕ
  largerQuantity : ℕ
  additionalQuantity : ℕ
  state : ConfState
  smallerPartyResponse : Option Bool := none
  deriving DecidableEq

/-- Whose turn it is in a price negotiation. -/
inductive Turn where
  | BID
  | OFFER
  deriving DecidableEq

/-- Turn switch used on "improved without a new price". -/
def toggleTurn : Turn → Turn
  | Turn.BID => Turn.OFFER
  | Turn.OFFER => Turn.BID

/-- An entry of the `negotiationState` map (timer handle omitted). -/
structure NegState where
  bestBid : Order
  bestOffer : Order
  turn : Turn
  deriving DecidableEq

/-- The engine's in-memory mutable fields. -/
structure EngineState where
  pendingConfirmations : List (String × PendingConf)
  declinedPartialFills : List String
  negotiationState : List (String × NegState)
  lastOrdersCache : List Order
  lastCacheTime : ℕ
  deriving DecidableEq

/-- `Map.get` on an association list. -/
def lookupA {α : Type} : List (String × α) → String → Option α
  | [], _ => none
  | p :: t, k => if p.1 = k then some p.2 else lookupA t k

/-- `Map.set`: replace the entry in place if the key exists, else append. -/
def insertA {α : Type} : List (String × α) → String → α → List (String × α)
  | [], k, v => [(k, v)]
  | p :: t, k, v => if p.1 = k then (k, v) :: t else p :: insertA t k v

/-- `Map.delete` (keys are unique, so removing every occurrence agrees). -/
def eraseA {α : Type} : List (String × α) → String → List (String × α)
  | [], _ => []
  | p :: t, k => if p.1 = k then eraseA t k else p :: eraseA t k

/-- `Set.add` on the declined-pairs set. -/
def insertSet (l : List String) (k : String) : List String :=
  if k ∈ l then l else l ++ [k]

/-- `invalidateCache` (lines 217-221). -/
def invalidateCache (s : EngineState) : EngineState :=
  { s with lastCacheTime := 0, lastOrdersCache := [] }

/-- `cacheValidityMs` field: 30 seconds. -/
def cacheValidityMs : ℕ := 30000

/-- What a call to `getActiveOrders` returns: the vector handed to the
caller, the updated engine state, and whether the store was queried. -/
structure FetchResult where
  orders : List Order
  state : EngineState
  queriedStore : Bool
  deriving DecidableEq

/-- `getActiveOrders` (lines 174-215). `storeFetch = none` models the store
query failing (the `catch` branch); `some v` a successful query result. -/
def getActiveOrders (s : EngineState) (now : ℕ) (storeFetch : Option (List Order)) :
    FetchResult :=
  if s.lastCacheTime ≠ 0 ∧ now - s.lastCacheTime < cacheValidityMs then
    { orders := s.lastOrdersCache, state := s, queriedStore := false }
  else
    match storeFetch with
    | some orders =>
        { orders := orders
          state := { s with lastOrdersCache := orders, lastCacheTime := now }
          queriedStore := true }
    | none => { orders := s.lastOrdersCache, state := s, queriedStore := true }

/-- The row content written by the quantity upsize: both the original
amount and the remaining become the new quantity. -/
def upsizeWrite (n : ℕ) (o : Order) : Order :=
  { o with amount := n, remaining := n }

/-- `prisma.order.findUnique` over the explicit store. -/
def findOrder : List Order → String → Option Order
  | [], _ => none
  | o :: t, i => if o.id = i then some o else findOrder t i

/-- `prisma.order.update`: rewrite the row with the given id. -/
def updateOrder (store : List Order) (i : String) (f : Order → Order) : List Order :=
  store.map (fun o => if o.id = i then f o else o)

/-- The order fields written by one `tx.order.update` of the commit. -/
def writeExecFields (u : Order) (o : Order) : Order :=
  { o with
    remaining := u.remaining
    matched := u.matched
    counterparty := u.counterparty
    status := u.status }

/-- The two `tx.order.update` writes of `executeMatch`'s transaction applied
to the explicit store. -/
def applyExecToStore (store : List Order) (bid offer : Order) : List Order :=
  let r := executeMatch bid offer
  let s1 := updateOrder store bid.id (writeExecFields r.updatedBid)
  updateOrder s1 offer.id (writeExecFields r.updatedOffer)

/-- Best-bid comparator (line 255): highest price, earliest `createdAt` on a
tie; a left fold with this function is the first element of the stable sort. -/
def betterBid (x y : Order) : Order :=
  if x.price < y.price ∨ (y.price = x.price ∧ y.createdAt < x.createdAt) then y else x

/-- Best-offer comparator (line 256): lowest price, earliest `createdAt` on a
tie. -/
def betterOffer (x y : Order) : Order :=
  if y.price < x.price ∨ (y.price = x.price ∧ y.createdAt < x.createdAt) then y else x

/-- First element of the comparator-sorted list, `none` when empty. -/
def bestOf (f : Order → Order → Order) : List Order → Option Order
  | [] => none
  | h :: t => some (t.foldl f h)

/-- What a per-asset matching pass did (`processAssetMatching`). -/
inductive AssetOutcome where
  | noSide
  | executed (bid offer : Order)
  | skippedPending (key : String)
  | skippedDeclined (key : String)
  | confirmationOpened (key notifiedUser : String) (timerMs : ℕ)
  | negotiationStarted (alerted : Bool)
  | negotiationUpdated (alerted : Bool)
  | negotiationIdle (alerted : Bool)
  deriving DecidableEq

/-- `sendCompetitiveBiddingAlerts` (lines 779-833): `true` iff the advisory
messages actually go out. -/
def sendCompetitiveBiddingAlerts (bestBid bestOffer : Order) : Bool :=
  if bestOffer.price ≤ bestBid.price then false
  else if 20 < (bestOffer.price - bestBid.price) / bestBid.price * 100 then false
  else true

/-- The price-match, quantity-mismatch branch of `processAssetMatching`
(lines 266-344): duplicate check, declined check, then open an
`AWAITING_SMALLER` confirmation with a 60 s timer. -/
def mismatchPath (s : EngineState) (asset : String) (bestBid bestOffer : Order) :
    EngineState × AssetOutcome :=
  let bidQuantity := bestBid.remaining
  let offerQuantity := bestOffer.remaining
  let smallerQuantity := min bidQuantity offerQuantity
  let largerQuantity := max bidQuantity offerQuantity
  let additionalQuantity := largerQuantity - smallerQuantity
  let smallerParty := if bidQuantity < offerQuantity then Party.BUYER else Party.SELLER
  let smallerOrder := if bidQuantity < offerQuantity then bestBid else bestOffer
  let confirmationKey := asset ++ ":" ++ bestBid.id ++ ":" ++ bestOffer.id
  if (lookupA s.pendingConfirmations confirmationKey).isSome then
    (s, AssetOutcome.skippedPending confirmationKey)
  else if confirmationKey ∈ s.declinedPartialFills then
    (s, AssetOutcome.skippedDeclined confirmationKey)
  else
    let pc : PendingConf :=
      { confirmationKey := confirmationKey
        asset := asset
        bidOrder := bestBid
        offerOrder := bestOffer
        smallerParty := smallerParty
        smallerQuantity := smallerQuantity
        largerQuantity := largerQuantity
        additionalQuantity := additionalQuantity
        state := ConfState.AWAITING_SMALLER }
    ({ s with pendingConfirmations := insertA s.pendingConfirmations confirmationKey pc },
     AssetOutcome.confirmationOpened confirmationKey smallerOrder.userId 60000)

/-- The non-matching-price tail of `processAssetMatching` (lines 351-387):
competitive advisory only when bid < offer, then the negotiation state
machine. -/
def negotiationPath (s : EngineState) (asset : String) (bestBid bestOffer : Order) :
    EngineState × AssetOutcome :=
  let alerted := if bestBid.price < bestOffer.price
                 then sendCompetitiveBiddingAlerts bestBid bestOffer else false
  match lookupA s.negotiationState asset with
  | none =>
      let st0 : NegState := { bestBid := bestBid, bestOffer := bestOffer, turn := Turn.OFFER }
      ({ s with negotiationState := insertA s.negotiationState asset st0 },
       AssetOutcome.negotiationStarted alerted)
  | some st =>
      let bidChanged := bestBid.id ≠ st.bestBid.id
      let st1 := if bidChanged then { st with bestBid := bestBid, turn := Turn.OFFER } else st
      let offerChanged := bestOffer.id ≠ st1.bestOffer.id
      let st2 := if offerChanged then { st1 with bestOffer := bestOffer, turn := Turn.BID } else st1
      if bidChanged ∨ offerChanged then
        ({ s with negotiationState := insertA s.negotiationState asset st2 },
         AssetOutcome.negotiationUpdated alerted)
      else (s, AssetOutcome.negotiationIdle alerted)

/-- Dispatch on the best pair's prices (lines 259-387). -/
def processPair (s : EngineState) (asset : String) (bestBid bestOffer : Order) :
    EngineState × AssetOutcome :=
  if bestBid.price = bestOffer.price then
    if bestBid.remaining ≠ bestOffer.remaining then mismatchPath s asset bestBid bestOffer
    else (invalidateCache s, AssetOutcome.executed bestBid bestOffer)
  else negotiationPath s asset bestBid bestOffer

/-- `processAssetMatching` (lines 245-387). -/
def processAssetMatching (s : EngineState) (asset : String) (orders : List Order) :
    EngineState × AssetOutcome :=
  let bids := orders.filter (fun o => o.action == OrderAction.BID)
  let offers := orders.filter (fun o => o.action == OrderAction.OFFER)
  match bestOf betterBid bids, bestOf betterOffer offers with
  | some bestBid, some bestOffer => processPair s asset bestBid bestOffer
  | _, _ => (s, AssetOutcome.noSide)

/-- What `handleQuantityConfirmationResponse` did. -/
inductive ConfOutcome where
  | ignoredUnknownKey
  | upsizeExecuted (bid offer : Order)
  | upsizeReloadFailed
  | movedToAwaitingLarger (notifiedUser : String) (timerMs : ℕ)
  | staleExecuted (bid offer : Order)
  | declinedFinal (key : String)
  deriving DecidableEq

/-- `handleQuantityConfirmationResponse` (lines 486-557). Returns the new
engine state, the new store contents, and the outcome. -/
def handleQuantityConfirmationResponse (s : EngineState) (store : List Order)
    (confirmationKey : String) (accepted : Bool) (newQuantity : Option ℕ) :
    EngineState × List Order × ConfOutcome :=
  match lookupA s.pendingConfirmations confirmationKey with
  | none => (s, store, ConfOutcome.ignoredUnknownKey)
  | some c0 =>
    match c0.state with
    | ConfState.AWAITING_SMALLER =>
      let c := { c0 with smallerPartyResponse := some accepted }
      let upsize : Option ℕ :=
        match accepted, newQuantity with
        | true, some n => if n = 0 then none else some n
        | _, _ => none
      match upsize with
      | some n =>
        let targetId := match c.smallerParty with
          | Party.BUYER => c.bidOrder.id
          | Party.SELLER => c.offerOrder.id
        let store1 := updateOrder store targetId (upsizeWrite n)
        match findOrder store1 c.bidOrder.id, findOrder store1 c.offerOrder.id with
        | some updatedBid, some updatedOffer =>
          (invalidateCache
            { s with pendingConfirmations := eraseA s.pendingConfirmations confirmationKey },
           applyExecToStore store1 updatedBid updatedOffer,
           ConfOutcome.upsizeExecuted updatedBid updatedOffer)
        | _, _ =>
          ({ s with pendingConfirmations := insertA s.pendingConfirmations confirmationKey c },
           store1, ConfOutcome.upsizeReloadFailed)
      | none =>
        let c1 := { c with state := ConfState.AWAITING_LARGER }
        let largerOrder := match c.smallerParty with
          | Party.BUYER => c.offerOrder
          | Party.SELLER => c.bidOrder
        ({ s with pendingConfirmations := insertA s.pendingConfirmations confirmationKey c1 },
         store, ConfOutcome.movedToAwaitingLarger largerOrder.userId 60000)
    | ConfState.AWAITING_LARGER =>
      let s1 := { s with pendingConfirmations := eraseA s.pendingConfirmations confirmationKey }
      if accepted then
        (invalidateCache s1, applyExecToStore store c0.bidOrder c0.offerOrder,
         ConfOutcome.staleExecuted c0.bidOrder c0.offerOrder)
      else
        ({ s1 with declinedPartialFills := insertSet s1.declinedPartialFills confirmationKey },
         store, ConfOutcome.declinedFinal confirmationKey)

/-- What `handleNegotiationResponse` did. -/
inductive NegOutcome where
  | noState
  | rescanned (passOutcome : AssetOutcome)
  | turnToggled (newTurn : Turn)
  | passedCleared
  deriving DecidableEq

/-- Result of `handleNegotiationResponse`: new engine state, the order-price
store writes it issued, and the outcome. -/
structure NegResult where
  state : EngineState
  priceUpdates : List (String × ℚ)
  outcome : NegOutcome
  deriving DecidableEq

/-- `handleNegotiationResponse` (lines 445-483). `now`/`storeFetch` feed the
internal `getActiveOrders` call on the improve-with-price path. -/
def handleNegotiationResponse (s : EngineState) (asset userId : String)
    (improved : Bool) (newPrice : Option ℚ) (now : ℕ) (storeFetch : Option (List Order)) :
    NegResult :=
  match lookupA s.negotiationState asset with
  | none => { state := s, priceUpdates := [], outcome := NegOutcome.noState }
  | some st =>
    match improved, newPrice with
    | true, some p =>
      let orderToUpdate : Option Order :=
        if st.turn = Turn.OFFER ∧ st.bestOffer.userId = userId then some st.bestOffer
        else if st.turn = Turn.BID ∧ st.bestBid.userId = userId then some st.bestBid
        else none
      let updates := match orderToUpdate with
        | some o => [(o.id, p)]
        | none => []
      let fetched := getActiveOrders s now storeFetch
      let pass := processAssetMatching fetched.state asset
        (fetched.orders.filter (fun o => o.asset == asset))
      { state := pass.1
        priceUpdates := updates
        outcome := NegOutcome.rescanned pass.2 }
    | true, none =>
      let st1 := { st with turn := toggleTurn st.turn }
      { state := { s with negotiationState := insertA s.negotiationState asset st1 }
        priceUpdates := []
        outcome := NegOutcome.turnToggled st1.turn }
    | false, _ =>
      { state := { s with negotiationState := eraseA s.negotiationState asset }
        priceUpdates := []
        outcome := NegOutcome.passedCleared }

/-- Observable effects of one `processMatching` tick (lines 137-172), beyond
the heartbeat write: whether `getActiveOrders` was consulted, the
`matching:has_active_orders` writes (value, expiry seconds), and whether the
in-memory matching ran. -/
structure TickOutcome where
  snapshotRefreshed : Bool
  flagWrites : List (Bool × ℕ)
  ranMatching : Bool
  deriving DecidableEq

/-- `processMatching` flag logic: `hasActiveOrdersFlag` is the truthiness of
the value read from the key/value store, `fetchedOrders` what
`getActiveOrders` returned. -/
def processMatching (hasActiveOrdersFlag : Bool) (fetchedOrders : List Order) : TickOutcome :=
  if hasActiveOrdersFlag then
    { snapshotRefreshed := true
      flagWrites := []
      ranMatching := decide (fetchedOrders.length ≠ 0) }
  else
    if 0 < fetchedOrders.length then
      { snapshotRefreshed := true, flagWrites := [(true, 300)], ranMatching := true }
    else
      { snapshotRefreshed := true, flagWrites := [(false, 300)], ranMatching := false }

/-- Payload shape returned by `getUserPendingConfirmations`. -/
structure ConfDetails where
  asset : String
  yourQuantity : ℕ
  availableQuantity : ℕ
  additionalQuantity : ℕ
  side : Party
  deriving DecidableEq

/-- The details record built for one pending confirmation. -/
def detailsOf (c : PendingConf) : ConfDetails :=
  { asset := c.asset
    yourQuantity := c.smallerQuantity
    availableQuantity := c.largerQuantity
    additionalQuantity := c.additionalQuantity
    side := c.smallerParty }

/-- `getUserPendingConfirmations` (lines 894-916), as written: the user is
matched against the smaller party only, in every state. -/
def getUserPendingConfirmations (s : EngineState) (userId : String) :
    List (String × ConfDetails) :=
  s.pendingConfirmations.filterMap (fun p =>
    if (p.2.smallerParty = Party.BUYER ∧ p.2.bidOrder.userId = userId) ∨
       (p.2.smallerParty = Party.SELLER ∧ p.2.offerOrder.userId = userId) then
      some (p.1, detailsOf p.2)
    else none)

/-- The party whose response a confirmation is currently awaiting: the
smaller party while `AWAITING_SMALLER`, the larger while `AWAITING_LARGER`. -/
def solicitedUser (c : PendingConf) : String :=
  match c.state with
  | ConfState.AWAITING_SMALLER =>
      match c.smallerParty with
      | Party.BUYER => c.bidOrder.userId
      | Party.SELLER => c.offerOrder.userId
  | ConfState.AWAITING_LARGER =>
      match c.smallerParty with
      | Party.BUYER => c.offerOrder.userId
      | Party.SELLER => c.bidOrder.userId

/-- The lookup as the spec words it: list the confirmations currently
soliciting the given user. Compared against `getUserPendingConfirmations`. -/
def getUserPendingConfirmationsSpec (s : EngineState) (userId : String) :
    List (String × ConfDetails) :=
  s.pendingConfirmations.filterMap (fun p =>
    if solicitedUser p.2 = userId then some (p.1, detailsOf p.2) else none)

/-- One state-mutating engine operation, with its environment inputs. -/
inductive Step where
  | assetPass (asset : String) (orders : List Order)
  | confResponse (store : List Order) (key : String) (accepted : Bool) (newQuantity : Option ℕ)
  | negResponse (asset userId : String) (improved : Bool) (newPrice : Option ℚ)
      (now : ℕ) (storeFetch : Option (List Order))
  | negTimeout (asset : String)
  | processAssetCall (asset : String) (orders : List Order)

/-- State transition of one operation. `negTimeout` is the 30 s negotiation
timer (broadcast and delete, lines 432-441); `processAssetCall` the public
`processAsset` entry point (lines 919-959). -/
def applyStep (s : EngineState) : Step → EngineState
  | Step.assetPass a os => (processAssetMatching s a os).1
  | Step.confResponse store k acc nq => (handleQuantityConfirmationResponse s store k acc nq).1
  | Step.negResponse a u imp np now fetch => (handleNegotiationResponse s a u imp np now fetch).state
  | Step.negTimeout a => { s with negotiationState := eraseA s.negotiationState a }
  | Step.processAssetCall a os =>
      if os.length < 2 then s else invalidateCache (processAssetMatching s a os).1

/-- Run a sequence of operations. -/
def applySteps (s : EngineState) (steps : List Step) : EngineState :=
  steps.foldl applyStep s

/-- Concrete order used to instantiate the theorems. -/
def oBid1 : Order :=
  { id := "b1"
    action := OrderAction.BID
    price := 100
    asset := "gold"
    amount := 5
    remaining := 5
    userId := "alice"
    createdAt := 1 }

/-- Concrete offer with a larger quantity than `oBid1`. -/
def oOffer1 : Order :=
  { id := "o1"
    action := OrderAction.OFFER
    price := 100
    asset := "gold"
    amount := 7
    remaining := 7
    userId := "bob"
    createdAt := 2 }

/-- Concrete bid priced above `oOfferCross`: a crossing book. -/
def oBidCross : Order :=
  { id := "b2"
    action := OrderAction.BID
    price := 101
    asset := "gold"
    amount := 5
    remaining := 5
    userId := "alice"
    createdAt := 1 }

/-- Concrete offer priced below `oBidCross`. -/
def oOfferCross : Order :=
  { id := "o2"
    action := OrderAction.OFFER
    price := 100
    asset := "gold"
    amount := 5
    remaining := 5
    userId := "bob"
    createdAt := 2 }

/-- Engine state with every in-memory container empty. -/
def emptyState : EngineState :=
  { pendingConfirmations := []
    declinedPartialFills := []
    negotiationState := []
    lastOrdersCache := []
    lastCacheTime := 0 }

/-- State in which the pair key of `oBid1`/`oOffer1` was finally declined. -/
def declinedState : EngineState :=
  { emptyState with declinedPartialFills := ["gold:b1:o1"] }

/-- Confirmation for `oBid1`/`oOffer1` awaiting the smaller party (buyer). -/
def confAwaitSmaller : PendingConf :=
  { confirmationKey := "gold:b1:o1"
    asset := "gold"
    bidOrder := oBid1
    offerOrder := oOffer1
    smallerParty := Party.BUYER
    smallerQuantity := 5
    largerQuantity := 7
    additionalQuantity := 2
    state := ConfState.AWAITING_SMALLER }

/-- The same confirmation after the smaller party declined. -/
def confAwaitLarger : PendingConf :=
  { confAwaitSmaller with
    state := ConfState.AWAITING_LARGER
    smallerPartyResponse := some false }

/-- State holding `confAwaitSmaller`. -/
def pendingSmallState : EngineState :=
  { emptyState with pendingConfirmations := [("gold:b1:o1", confAwaitSmaller)] }

/-- State holding `confAwaitLarger`. -/
def pendingLargeState : EngineState :=
  { emptyState with pendingConfirmations := [("gold:b1:o1", confAwaitLarger)] }

/-- Concrete bid below the best offer, for negotiation states. -/
def oBidNeg : Order :=
  { id := "b3"
    action := OrderAction.BID
    price := 95
    asset := "gold"
    amount := 5
    remaining := 5
    userId := "alice"
    createdAt := 1 }

/-- Live negotiation on "gold": offer's turn (bob is solicited). -/
def negSt1 : NegState :=
  { bestBid := oBidNeg, bestOffer := oOffer1, turn := Turn.OFFER }

/-- State holding `negSt1`. -/
def negotiatingState : EngineState :=
  { emptyState with negotiationState := [("gold", negSt1)] }

/-- State with a warm snapshot cache fetched at t = 1000 ms. -/
def cachedState : EngineState :=
  { emptyState with lastOrdersCache := [oBid1], lastCacheTime := 1000 }

/-- Store rows backing `oBid1` and `oOffer1`. -/
def storeBO : List Order := [oBid1, oOffer1]


/-- `Set.add` preserves existing members. -/
theorem mem_insertSet_of_mem (l : List String) (k x : String) (h : x ∈ l) :
    x ∈ insertSet l k := by
  unfold insertSet
  split
  · exact h
  · exact List.mem_append_left _ h

/-- Looking up a key right after `Map.set` yields the set value. -/
theorem lookupA_insertA_self {α : Type} (l : List (String × α)) (k : String) (v : α) :
    lookupA (insertA l k v) k = some v := by
  induction l with
  | nil => simp [insertA, lookupA]
  | cons p t ih =>
      by_cases h : p.1 = k
      · simp [insertA, h, lookupA]
      · simp [insertA, h, lookupA, ih]

/-- Looking up a key right after `Map.delete` yields nothing. -/
theorem lookupA_eraseA {α : Type} (l : List (String × α)) (k : String) :
    lookupA (eraseA l k) k = none := by
  induction l with
  | nil => rfl
  | cons p t ih =>
      by_cases h : p.1 = k
      · simp [eraseA, h, ih]
      · simp [eraseA, h, lookupA, ih]

/-- Reading back the updated row sees the update (for id-preserving writes). -/
theorem findOrder_updateOrder_self (store : List Order) (i : String) (f : Order → Order)
    (hf : ∀ o : Order, (f o).id = o.id) :
    findOrder (updateOrder store i f) i = Option.map f (findOrder store i) := by
  induction store with
  | nil => rfl
  | cons o t ih =>
      by_cases h : o.id = i
      · simp [updateOrder, findOrder, h, hf o]
      · simp only [updateOrder, List.map_cons, findOrder, if_neg h]
        exact ih

/-- Updating one row does not change reads of a different id. -/
theorem findOrder_updateOrder_ne (store : List Order) (i j : String) (f : Order → Order)
    (hf : ∀ o : Order, (f o).id = o.id) (hij : j ≠ i) :
    findOrder (updateOrder store j f) i = findOrder store i := by
  induction store with
  | nil => rfl
  | cons o t ih =>
      by_cases h : o.id = j
      · have h2 : (f o).id ≠ i := by rw [hf o, h]; exact hij
        have h3 : o.id ≠ i := by rw [h]; exact hij
        simp only [updateOrder, List.map_cons, if_pos h, findOrder, if_neg h2, if_neg h3]
        exact ih
      · by_cases h2 : o.id = i
        · simp only [updateOrder, List.map_cons, if_neg h, findOrder, if_pos h2]
        · simp only [updateOrder, List.map_cons, if_neg h, findOrder, if_neg h2]
          exact ih

/-- The mismatch branch never touches the declined-pairs set. -/
theorem mismatchPath_declined (s : EngineState) (a : String) (bb bo : Order) :
    (mismatchPath s a bb bo).1.declinedPartialFills = s.declinedPartialFills := by
  unfold mismatchPath
  repeat' (first | split | dsimp only)

/-- The negotiation branch never touches the declined-pairs set. -/
theorem negotiationPath_declined (s : EngineState) (a : String) (bb bo : Order) :
    (negotiationPath s a bb bo).1.declinedPartialFills = s.declinedPartialFills := by
  unfold negotiationPath
  repeat' (first | split | dsimp only)

/-- The price dispatch never touches the declined-pairs set. -/
theorem processPair_declined (s : EngineState) (a : String) (bb bo : Order) :
    (processPair s a bb bo).1.declinedPartialFills = s.declinedPartialFills := by
  unfold processPair
  split
  · split
    · exact mismatchPath_declined s a bb bo
    · rfl
  · exact negotiationPath_declined s a bb bo

/-- A per-asset pass never touches the declined-pairs set. -/
theorem processAssetMatching_declined (s : EngineState) (a : String) (os : List Order) :
    (processAssetMatching s a os).1.declinedPartialFills = s.declinedPartialFills := by
  unfold processAssetMatching
  repeat' (first | split | dsimp only)
  all_goals exact processPair_declined s a _ _

/-- The mismatch branch never opens a confirmation for a declined key. -/
theorem mismatchPath_not_opened (s : EngineState) (a : String) (bb bo : Order)
    (k u : String) (t : ℕ) (h : k ∈ s.declinedPartialFills) :
    (mismatchPath s a bb bo).2 ≠ AssetOutcome.confirmationOpened k u t := by
  unfold mismatchPath
  repeat' (first | split | dsimp only)
  all_goals intro heq
  all_goals cases heq
  all_goals exact absurd h (by assumption)

/-- The negotiation branch never opens a confirmation. -/
theorem negotiationPath_not_opened (s : EngineState) (a : String) (bb bo : Order)
    (k u : String) (t : ℕ) :
    (negotiationPath s a bb bo).2 ≠ AssetOutcome.confirmationOpened k u t := by
  unfold negotiationPath
  repeat' (first | split | dsimp only)
  all_goals simp

/-- The price dispatch never opens a confirmation for a declined key. -/
theorem processPair_not_opened (s : EngineState) (a : String) (bb bo : Order)
    (k u : String) (t : ℕ) (h : k ∈ s.declinedPartialFills) :
    (processPair s a bb bo).2 ≠ AssetOutcome.confirmationOpened k u t := by
  unfold processPair
  split
  · split
    · exact mismatchPath_not_opened s a bb bo k u t h
    · simp
  · exact negotiationPath_not_opened s a bb bo k u t

/-- A per-asset pass never opens a confirmation for a declined key. -/
theorem processAssetMatching_not_opened (s : EngineState) (a : String) (os : List Order)
    (k u : String) (t : ℕ) (h : k ∈ s.declinedPartialFills) :
    (processAssetMatching s a os).2 ≠ AssetOutcome.confirmationOpened k u t := by
  unfold processAssetMatching
  repeat' (first | split | dsimp only)
  all_goals first
    | exact processPair_not_opened s a _ _ k u t h
    | simp


theorem getActiveOrders_declined (s : EngineState) (now : ℕ) (fetch : Option (List Order)) :
    (getActiveOrders s now fetch).state.declinedPartialFills = s.declinedPartialFills := by
  unfold getActiveOrders
  repeat' (first | split | dsimp only)

theorem handleNegotiationResponse_declined (s : EngineState) (a u : String) (imp : Bool)
    (np : Option ℚ) (now : ℕ) (fetch : Option (List Order)) :
    (handleNegotiationResponse s a u imp np now fetch).state.declinedPartialFills =
      s.declinedPartialFills := by
  unfold handleNegotiationResponse
  repeat' (first | split | dsimp only)
  all_goals rw [processAssetMatching_declined, getActiveOrders_declined]

theorem handleQuantityConfirmationResponse_declined_mono (s : EngineState)
    (store : List Order) (k : String) (acc : Bool) (nq : Option ℕ) (x : String)
    (h : x ∈ s.declinedPartialFills) :
    x ∈ (handleQuantityConfirmationResponse s store k acc nq).1.declinedPartialFills := by
  unfold handleQuantityConfirmationResponse
  repeat' (first | split | dsimp only)
  all_goals first
    | exact h
    | exact mem_insertSet_of_mem _ _ _ h

theorem applyStep_declined_mono (s : EngineState) (st : Step) (x : String)
    (h : x ∈ s.declinedPartialFills) :
    x ∈ (applyStep s st).declinedPartialFills := by
  cases st with
  | assetPass a os =>
      show x ∈ (processAssetMatching s a os).1.declinedPartialFills
      rw [processAssetMatching_declined]; exact h
  | confResponse store k acc nq =>
      exact handleQuantityConfirmationResponse_declined_mono s store k acc nq x h
  | negResponse a u imp np now fetch =>
      show x ∈ (handleNegotiationResponse s a u imp np now fetch).state.declinedPartialFills
      rw [handleNegotiationResponse_declined]; exact h
  | negTimeout a => exact h
  | processAssetCall a os =>
      show x ∈ (if os.length < 2 then s
                else invalidateCache (processAssetMatching s a os).1).declinedPartialFills
      split
      · exact h
      · show x ∈ (processAssetMatching s a os).1.declinedPartialFills
        rw [processAssetMatching_declined]; exact h

theorem applySteps_declined_mono (steps : List Step) (s : EngineState) (x : String)
    (h : x ∈ s.declinedPartialFills) :
    x ∈ (applySteps s steps).declinedPartialFills := by
  induction steps generalizing s with
  | nil => exact h
  | cons st t ih =>
      show x ∈ (applySteps (applyStep s st) t).declinedPartialFills
      exact ih _ (applyStep_declined_mono s st x h)

/-- C2: once a confirmation key is in the declined set it stays there through
any sequence of engine operations, and no later per-asset matching pass can
open a pending confirmation for that key, whatever orders it observes. -/
theorem c2_declined_suppresses_forever (s : EngineState) (steps : List Step)
    (k asset u : String) (orders : List Order) (t : ℕ)
    (h : k ∈ s.declinedPartialFills) :
    k ∈ (applySteps s steps).declinedPartialFills ∧
    (processAssetMatching (applySteps s steps) asset orders).2 ≠
      AssetOutcome.confirmationOpened k u t := by
  have hm := applySteps_declined_mono steps s k h
  exact ⟨hm, processAssetMatching_not_opened _ asset orders k u t hm⟩

/-- C2 witness: after the pair gold:b1:o1 was finally declined, a pass over
the same price-matched, quantity-mismatched pair skips it. -/
theorem c2_witness :
    "gold:b1:o1" ∈
      (applySteps declinedState [Step.assetPass "gold" storeBO]).declinedPartialFills ∧
    (processAssetMatching (applySteps declinedState [Step.assetPass "gold" storeBO])
        "gold" storeBO).2 ≠
      AssetOutcome.confirmationOpened "gold:b1:o1" "alice" 60000 :=
  c2_declined_suppresses_forever declinedState [Step.assetPass "gold" storeBO]
    "gold:b1:o1" "gold" "alice" storeBO 60000 (by decide)

/-- C1: the committed trade's amount is min of the two remainings, its price
the offer's; each order's remaining drops by exactly that amount; an order
whose new remaining is 0 gets matched, the counterparty and MATCHED status,
otherwise its status is written ACTIVE. -/
theorem c1_executeMatch_commit (bid offer : Order) :
    (executeMatch bid offer).trade.amount = min bid.remaining offer.remaining ∧
    (executeMatch bid offer).trade.price = offer.price ∧
    (executeMatch bid offer).updatedBid.remaining =
      bid.remaining - (executeMatch bid offer).trade.amount ∧
    (executeMatch bid offer).updatedOffer.remaining =
      offer.remaining - (executeMatch bid offer).trade.amount ∧
    (executeMatch bid offer).updatedBid.matched =
      decide ((executeMatch bid offer).updatedBid.remaining = 0) ∧
    (executeMatch bid offer).updatedBid.counterparty =
      (if (executeMatch bid offer).updatedBid.remaining = 0 then some offer.userId else none) ∧
    (executeMatch bid offer).updatedBid.status =
      (if (executeMatch bid offer).updatedBid.remaining = 0 then OrderStatus.MATCHED
       else OrderStatus.ACTIVE) ∧
    (executeMatch bid offer).updatedOffer.matched =
      decide ((executeMatch bid offer).updatedOffer.remaining = 0) ∧
    (executeMatch bid offer).updatedOffer.counterparty =
      (if (executeMatch bid offer).updatedOffer.remaining = 0 then some bid.userId else none) ∧
    (executeMatch bid offer).updatedOffer.status =
      (if (executeMatch bid offer).updatedOffer.remaining = 0 then OrderStatus.MATCHED
       else OrderStatus.ACTIVE) :=
  ⟨rfl, rfl, rfl, rfl, rfl, rfl, rfl, rfl, rfl, rfl⟩

/-- C9: the charged commission is the spec's formula
round(amount · price · 0.001 · 100)/100; for an integer amount and a
two-decimal price c/100 this is amount·c/1000 rounded half-up at the second
decimal. -/
theorem c9_commission_formula (amount c : ℕ) :
    calculateCommission amount ((c : ℚ) / 100) =
      commissionSpecFormula amount ((c : ℚ) / 100) ∧
    calculateCommission amount ((c : ℚ) / 100) =
      ((jsMathRound (((amount * c : ℕ) : ℚ) / 1000) : ℚ)) / 100 := by
  constructor
  · rfl
  · have harg : ((amount : ℚ) * ((c : ℚ) / 100) * (1 / 1000)) * 100 =
        (((amount * c : ℕ) : ℚ) / 1000) := by
      push_cast
      ring
    rw [calculateCommission, harg]

/-- C4 counterexample: with the hint flag truthy and no active orders, the
tick writes no flag at all (the claim demands a false write with expiry). -/
theorem c4_counterexample :
    (processMatching true []).flagWrites ≠ [(false, 300)] ∧
    (processMatching true []).flagWrites = [] ∧
    (processMatching true []).ranMatching = false := by decide

/-- C4 amended: the snapshot is consulted and matching is skipped on an
empty snapshot regardless of the flag, but the flag is only recomputed and
written (5-minute expiry) when the read flag was missing or false; a truthy
flag is never rewritten. -/
theorem c4_amended_flag_behaviour (orders : List Order) :
    (processMatching true orders).snapshotRefreshed = true ∧
    (processMatching false orders).snapshotRefreshed = true ∧
    (processMatching true orders).flagWrites = [] ∧
    (processMatching false orders).flagWrites = [(decide (0 < orders.length), 300)] ∧
    (processMatching true orders).ranMatching = decide (orders.length ≠ 0) ∧
    (processMatching false orders).ranMatching = decide (orders.length ≠ 0) := by
  refine ⟨rfl, ?_, rfl, ?_, rfl, ?_⟩ <;>
    · unfold processMatching
      by_cases hp : 0 < orders.length
      · have hne : orders.length ≠ 0 := Nat.pos_iff_ne_zero.mp hp
        simp [hp, hne]
      · have hz : orders.length = 0 := Nat.eq_zero_of_not_pos hp
        simp [hp, hz]

/-- C7: when the store query fails, `getActiveOrders` returns the cached
vector and leaves the state untouched; inside the 30 s validity window the
cache is served without any store query. -/
theorem c7_snapshot_cache (s : EngineState) (now : ℕ) (fetch : Option (List Order)) :
    (getActiveOrders s now none).orders = s.lastOrdersCache ∧
    (getActiveOrders s now none).state = s ∧
    (s.lastCacheTime ≠ 0 → now - s.lastCacheTime < cacheValidityMs →
      getActiveOrders s now fetch =
        { orders := s.lastOrdersCache, state := s, queriedStore := false }) := by
  refine ⟨?_, ?_, ?_⟩
  · unfold getActiveOrders
    split
    · rfl
    · rfl
  · unfold getActiveOrders
    split
    · rfl
    · rfl
  · intro h1 h2
    unfold getActiveOrders
    rw [if_pos ⟨h1, h2⟩]

/-- C7 witness: at t = 1500 ms with a cache fetched at t = 1000 ms, the cache
is served unchanged even though the store would have returned fresh rows. -/
theorem c7_witness :
    getActiveOrders cachedState 1500 (some [oOffer1]) =
      { orders := cachedState.lastOrdersCache, state := cachedState, queriedStore := false } :=
  (c7_snapshot_cache cachedState 1500 (some [oOffer1])).2.2 (by decide) (by decide)

/-- C8: with a confirmation in AWAITING_LARGER (larger party bob is the one
solicited), the lookup returns nothing for bob and still returns the
confirmation to alice, who already responded — diverging from the
spec-worded lookup. -/
theorem c8_solicitation_divergence :
    (lookupA pendingLargeState.pendingConfirmations "gold:b1:o1").map PendingConf.state =
      some ConfState.AWAITING_LARGER ∧
    solicitedUser confAwaitLarger = "bob" ∧
    getUserPendingConfirmations pendingLargeState "bob" = [] ∧
    getUserPendingConfirmationsSpec pendingLargeState "bob" =
      [("gold:b1:o1", detailsOf confAwaitLarger)] ∧
    getUserPendingConfirmations pendingLargeState "alice" =
      [("gold:b1:o1", detailsOf confAwaitLarger)] ∧
    getUserPendingConfirmationsSpec pendingLargeState "alice" = [] := by decide

/-- C5 counterexample: a crossing book (bid 101 > offer 100) does not commit
a trade; the pass starts a negotiation (with no advisory). -/
theorem c5_counterexample :
    oOfferCross.price < oBidCross.price ∧
    (processAssetMatching emptyState "gold" [oBidCross, oOfferCross]).2 =
      AssetOutcome.negotiationStarted false := by decide


/-- C5 amended: a crossing book (best bid priced above best offer) is not
committed and opens no confirmation; the pass falls through to the
negotiation path, with no competitive advisory sent. -/
theorem c5_crossing_book_negotiates (s : EngineState) (asset : String)
    (orders : List Order) (bb bo : Order)
    (hbb : bestOf betterBid (orders.filter (fun o => o.action == OrderAction.BID)) = some bb)
    (hbo : bestOf betterOffer (orders.filter (fun o => o.action == OrderAction.OFFER)) = some bo)
    (hcross : bo.price < bb.price) :
    processAssetMatching s asset orders = negotiationPath s asset bb bo ∧
    ((processAssetMatching s asset orders).2 = AssetOutcome.negotiationStarted false ∨
     (processAssetMatching s asset orders).2 = AssetOutcome.negotiationUpdated false ∨
     (processAssetMatching s asset orders).2 = AssetOutcome.negotiationIdle false) ∧
    (processAssetMatching s asset orders).1.pendingConfirmations = s.pendingConfirmations := by
  have hne : bb.price ≠ bo.price := ne_of_gt hcross
  have halert : ¬ bb.price < bo.price := not_lt.mpr (le_of_lt hcross)
  have heq : processAssetMatching s asset orders = negotiationPath s asset bb bo := by
    unfold processAssetMatching
    simp only [hbb, hbo]
    unfold processPair
    rw [if_neg hne]
  refine ⟨heq, ?_, ?_⟩
  · rw [heq]
    unfold negotiationPath
    rw [if_neg halert]
    repeat' (first | split | dsimp only)
    all_goals simp
  · rw [heq]
    unfold negotiationPath
    repeat' (first | split | dsimp only)

/-- C5 witness for the amended claim, at the crossing pair bid 101 / offer
100 on an empty engine state. -/
theorem c5_witness :
    processAssetMatching emptyState "gold" [oBidCross, oOfferCross] =
      negotiationPath emptyState "gold" oBidCross oOfferCross ∧
    ((processAssetMatching emptyState "gold" [oBidCross, oOfferCross]).2 =
        AssetOutcome.negotiationStarted false ∨
     (processAssetMatching emptyState "gold" [oBidCross, oOfferCross]).2 =
        AssetOutcome.negotiationUpdated false ∨
     (processAssetMatching emptyState "gold" [oBidCross, oOfferCross]).2 =
        AssetOutcome.negotiationIdle false) ∧
    (processAssetMatching emptyState "gold" [oBidCross, oOfferCross]).1.pendingConfirmations =
      emptyState.pendingConfirmations :=
  c5_crossing_book_negotiates emptyState "gold" [oBidCross, oOfferCross] oBidCross oOfferCross
    (by decide) (by decide) (by decide)


/-- C6 counterexample: alice is not the turn-holder (turn = OFFER solicits
bob), yet her "pass" response destroys the live negotiation state — the
claim says a wrong-side response leaves the state intact. -/
theorem c6_counterexample :
    lookupA negotiatingState.negotiationState "gold" = some negSt1 ∧
    negSt1.turn = Turn.OFFER ∧
    negSt1.bestOffer.userId ≠ "alice" ∧
    lookupA (handleNegotiationResponse negotiatingState "gold" "alice" false none 0
        none).state.negotiationState "gold" = none := by decide

/-- C6 amended: the responder identity is checked only on the
improve-with-newPrice path (no order price is updated for a wrong-side
responder); an "improve" without a price toggles the turn and a "pass"
destroys the state regardless of which user responds. -/
theorem c6_wrong_side_guard (s : EngineState) (asset userId : String) (st : NegState)
    (p : ℚ) (now : ℕ) (fetch : Option (List Order))
    (hs : lookupA s.negotiationState asset = some st)
    (hO : st.turn = Turn.OFFER → st.bestOffer.userId ≠ userId)
    (hB : st.turn = Turn.BID → st.bestBid.userId ≠ userId) :
    (handleNegotiationResponse s asset userId true (some p) now fetch).priceUpdates = [] ∧
    lookupA (handleNegotiationResponse s asset userId true none now
        fetch).state.negotiationState asset = some { st with turn := toggleTurn st.turn } ∧
    lookupA (handleNegotiationResponse s asset userId false none now
        fetch).state.negotiationState asset = none := by
  have hcond1 : ¬ (st.turn = Turn.OFFER ∧ st.bestOffer.userId = userId) := by
    rintro ⟨h1, h2⟩
    exact hO h1 h2
  have hcond2 : ¬ (st.turn = Turn.BID ∧ st.bestBid.userId = userId) := by
    rintro ⟨h1, h2⟩
    exact hB h1 h2
  refine ⟨?_, ?_, ?_⟩
  · unfold handleNegotiationResponse
    simp only [hs]
    rw [if_neg hcond1, if_neg hcond2]
  · unfold handleNegotiationResponse
    simp only [hs]
    exact lookupA_insertA_self _ _ _
  · unfold handleNegotiationResponse
    simp only [hs]
    exact lookupA_eraseA _ _

/-- C6 witness for the amended claim: alice (not the turn-holder) cannot
update a price, but her improve-without-price toggles the turn and her pass
clears the state. -/
theorem c6_witness :
    (handleNegotiationResponse negotiatingState "gold" "alice" true (some 99) 0
        none).priceUpdates = [] ∧
    lookupA (handleNegotiationResponse negotiatingState "gold" "alice" true none 0
        none).state.negotiationState "gold" = some { negSt1 with turn := toggleTurn negSt1.turn } ∧
    lookupA (handleNegotiationResponse negotiatingState "gold" "alice" false none 0
        none).state.negotiationState "gold" = none :=
  c6_wrong_side_guard negotiatingState "gold" "alice" negSt1 99 0 none
    (by decide) (by decide) (by decide)


/-- C3: on "smaller accepts with a newQuantity", the smaller-side order is
rewritten in the store with both original amount and remaining equal to the
new quantity, both orders are reloaded, the pending confirmation is removed,
and the commit runs on the freshly reloaded rows (not the snapshots captured
at creation). -/
theorem c3_upsize_commits_fresh (s : EngineState) (store : List Order) (key : String)
    (c : PendingConf) (bidRec offerRec : Order) (n : ℕ)
    (hc : lookupA s.pendingConfirmations key = some c)
    (hst : c.state = ConfState.AWAITING_SMALLER)
    (hn : n ≠ 0)
    (hids : c.bidOrder.id ≠ c.offerOrder.id)
    (hb : findOrder store c.bidOrder.id = some bidRec)
    (ho : findOrder store c.offerOrder.id = some offerRec) :
    (let tid := match c.smallerParty with
       | Party.BUYER => c.bidOrder.id
       | Party.SELLER => c.offerOrder.id
     let store1 := updateOrder store tid (upsizeWrite n)
     let ub := match c.smallerParty with
       | Party.BUYER => upsizeWrite n bidRec
       | Party.SELLER => bidRec
     let uo := match c.smallerParty with
       | Party.BUYER => offerRec
       | Party.SELLER => upsizeWrite n offerRec
     findOrder store1 c.bidOrder.id = some ub ∧
     findOrder store1 c.offerOrder.id = some uo ∧
     handleQuantityConfirmationResponse s store key true (some n) =
       (invalidateCache
          { s with pendingConfirmations := eraseA s.pendingConfirmations key },
        applyExecToStore store1 ub uo,
        ConfOutcome.upsizeExecuted ub uo) ∧
     lookupA (handleQuantityConfirmationResponse s store key true
         (some n)).1.pendingConfirmations key = none) := by
  have hf : ∀ o : Order, (upsizeWrite n o).id = o.id := fun _ => rfl
  cases hP : c.smallerParty with
  | BUYER =>
      dsimp only
      have h1 : findOrder (updateOrder store c.bidOrder.id (upsizeWrite n)) c.bidOrder.id =
          some (upsizeWrite n bidRec) := by
        rw [findOrder_updateOrder_self store c.bidOrder.id (upsizeWrite n) hf, hb]
        rfl
      have h2 : findOrder (updateOrder store c.bidOrder.id (upsizeWrite n)) c.offerOrder.id =
          some offerRec := by
        rw [findOrder_updateOrder_ne store c.offerOrder.id c.bidOrder.id (upsizeWrite n) hf hids,
          ho]
      have hmain : handleQuantityConfirmationResponse s store key true (some n) =
          (invalidateCache
             { s with pendingConfirmations := eraseA s.pendingConfirmations key },
           applyExecToStore (updateOrder store c.bidOrder.id (upsizeWrite n))
             (upsizeWrite n bidRec) offerRec,
           ConfOutcome.upsizeExecuted (upsizeWrite n bidRec) offerRec) := by
        unfold handleQuantityConfirmationResponse
        simp only [hc]
        simp only [hst]
        try dsimp only
        rw [if_neg hn]
        try dsimp only
        simp only [hP]
        try dsimp only
        simp only [h1, h2]
      refine ⟨h1, h2, hmain, ?_⟩
      rw [hmain]
      exact lookupA_eraseA _ _
  | SELLER =>
      dsimp only
      have h1 : findOrder (updateOrder store c.offerOrder.id (upsizeWrite n)) c.bidOrder.id =
          some bidRec := by
        rw [findOrder_updateOrder_ne store c.bidOrder.id c.offerOrder.id (upsizeWrite n) hf
          (Ne.symm hids), hb]
      have h2 : findOrder (updateOrder store c.offerOrder.id (upsizeWrite n)) c.offerOrder.id =
          some (upsizeWrite n offerRec) := by
        rw [findOrder_updateOrder_self store c.offerOrder.id (upsizeWrite n) hf, ho]
        rfl
      have hmain : handleQuantityConfirmationResponse s store key true (some n) =
          (invalidateCache
             { s with pendingConfirmations := eraseA s.pendingConfirmations key },
           applyExecToStore (updateOrder store c.offerOrder.id (upsizeWrite n))
             bidRec (upsizeWrite n offerRec),
           ConfOutcome.upsizeExecuted bidRec (upsizeWrite n offerRec)) := by
        unfold handleQuantityConfirmationResponse
        simp only [hc]
        simp only [hst]
        try dsimp only
        rw [if_neg hn]
        try dsimp only
        simp only [hP]
        try dsimp only
        simp only [h1, h2]
      refine ⟨h1, h2, hmain, ?_⟩
      rw [hmain]
      exact lookupA_eraseA _ _


/-- C3 witness: buyer (smaller side) accepts with newQuantity 7; the store
row b1 becomes amount 7 / remaining 7, both rows are reloaded, the pending
entry is removed and the commit consumes the reloaded rows. -/
theorem c3_witness :
    findOrder (updateOrder storeBO confAwaitSmaller.bidOrder.id (upsizeWrite 7))
        confAwaitSmaller.bidOrder.id = some (upsizeWrite 7 oBid1) ∧
    findOrder (updateOrder storeBO confAwaitSmaller.bidOrder.id (upsizeWrite 7))
        confAwaitSmaller.offerOrder.id = some oOffer1 ∧
    handleQuantityConfirmationResponse pendingSmallState storeBO "gold:b1:o1" true (some 7) =
      (invalidateCache
         { pendingSmallState with
           pendingConfirmations := eraseA pendingSmallState.pendingConfirmations "gold:b1:o1" },
       applyExecToStore (updateOrder storeBO confAwaitSmaller.bidOrder.id (upsizeWrite 7))
         (upsizeWrite 7 oBid1) oOffer1,
       ConfOutcome.upsizeExecuted (upsizeWrite 7 oBid1) oOffer1) ∧
    lookupA (handleQuantityConfirmationResponse pendingSmallState storeBO "gold:b1:o1" true
        (some 7)).1.pendingConfirmations "gold:b1:o1" = none :=
  c3_upsize_commits_fresh pendingSmallState storeBO "gold:b1:o1" confAwaitSmaller oBid1 oOffer1 7
    (by decide) (by decide) (by decide) (by decide) (by decide) (by decide)

/-- C10: in AWAITING_SMALLER, an accepting response with no newQuantity (or
newQuantity 0) runs the decline path: the store is untouched, no commit
happens, the confirmation moves to AWAITING_LARGER with a fresh 60 s timer,
and the larger party is asked to approve the partial fill; outcome and store
agree with an actual decline. -/
theorem c10_accept_without_quantity (s : EngineState) (store : List Order) (key : String)
    (c : PendingConf) (nq : Option ℕ)
    (hc : lookupA s.pendingConfirmations key = some c)
    (hst : c.state = ConfState.AWAITING_SMALLER)
    (hq : nq = none ∨ nq = some 0) :
    handleQuantityConfirmationResponse s store key true nq =
      ({ s with
         pendingConfirmations := insertA s.pendingConfirmations key
           { c with smallerPartyResponse := some true, state := ConfState.AWAITING_LARGER } },
       store,
       ConfOutcome.movedToAwaitingLarger
         (match c.smallerParty with
          | Party.BUYER => c.offerOrder
          | Party.SELLER => c.bidOrder).userId 60000) ∧
    (handleQuantityConfirmationResponse s store key false none).2.2 =
      (handleQuantityConfirmationResponse s store key true nq).2.2 ∧
    (handleQuantityConfirmationResponse s store key false none).2.1 =
      (handleQuantityConfirmationResponse s store key true nq).2.1 := by
  rcases hq with rfl | rfl <;>
    refine ⟨?_, ?_, ?_⟩ <;>
      · unfold handleQuantityConfirmationResponse
        simp only [hc]
        simp only [hst]
        try simp

/-- C10 witness: the buyer (smaller side) replies "yes" with no quantity;
the confirmation moves to AWAITING_LARGER, bob (seller, larger side) is
asked, the store keeps its rows, exactly as on a decline. -/
theorem c10_witness :
    handleQuantityConfirmationResponse pendingSmallState storeBO "gold:b1:o1" true none =
      ({ pendingSmallState with
         pendingConfirmations := insertA pendingSmallState.pendingConfirmations "gold:b1:o1"
           { confAwaitSmaller with
             smallerPartyResponse := some true
             state := ConfState.AWAITING_LARGER } },
       storeBO,
       ConfOutcome.movedToAwaitingLarger
         (match confAwaitSmaller.smallerParty with
          | Party.BUYER => confAwaitSmaller.offerOrder
          | Party.SELLER => confAwaitSmaller.bidOrder).userId 60000) ∧
    (handleQuantityConfirmationResponse pendingSmallState storeBO "gold:b1:o1" false none).2.2 =
      (handleQuantityConfirmationResponse pendingSmallState storeBO "gold:b1:o1" true none).2.2 ∧
    (handleQuantityConfirmationResponse pendingSmallState storeBO "gold:b1:o1" false none).2.1 =
      (handleQuantityConfirmationResponse pendingSmallState storeBO "gold:b1:o1" true none).2.1 :=
  c10_accept_without_quantity pendingSmallState storeBO "gold:b1:o1" confAwaitSmaller none
    (by decide) (by decide) (Or.inl rfl)

end MatchingEngine
